import Mathlib

/-!
Verification development for the py-staticmaps projection / viewport-fitting
core (`staticmaps/context.py`, `staticmaps/tile_downloader.py`).

Real-valued arithmetic of the Python source (IEEE floats) is modelled over ℚ;
the transcendental functions `math.log`, `math.tan`, `math.cos` and the
constant `math.pi` are abstracted as an explicit parameter record `MathOps`,
so every definition stays computable and every theorem quantifies over the
interpretation of those functions.  Geographic primitives come from the
third-party `s2sphere` library (an external collaborator per the spec) and
are modelled from the spec's §3/§4.1 description.
-/

/-- Abstraction of Python's `math.log`, `math.tan`, `math.cos`, `math.pi`:
the source evaluates these on floats; the model takes any rational-valued
interpretation. -/
structure MathOps where
  log : ℚ → ℚ
  tan : ℚ → ℚ
  cos : ℚ → ℚ
  pi : ℚ

/-- Modelled from the spec: `s2sphere.LatLng`, a geographic coordinate;
latitude and longitude are kept in degrees (the source reads `.degrees`
and `.radians` accessors; radians are derived via `deg_to_rad`). -/
structure LatLng where
  lat : ℚ
  lng : ℚ
deriving DecidableEq, Repr

/-- Modelled from the spec: `s2sphere.LatLngRect` — latitude interval
`[latLo, latHi]` and a longitude interval that wraps across the
antimeridian exactly when `lngLo > lngHi` (spec §3). -/
structure LatLngRect where
  latLo : ℚ
  latHi : ℚ
  lngLo : ℚ
  lngHi : ℚ
deriving DecidableEq, Repr

/-- Width in degrees of a (possibly wrapping) longitude interval. -/
def lng_span (lo hi : ℚ) : ℚ :=
  if lo ≤ hi then hi - lo else hi - lo + 360

/-- Membership in a (possibly wrapping) longitude interval. -/
def lng_contains (lo hi x : ℚ) : Bool :=
  if lo ≤ hi then decide (lo ≤ x ∧ x ≤ hi) else decide (lo ≤ x ∨ x ≤ hi)

/-- Modelled from the spec: `s2sphere`'s longitude-interval union with the
shortest-arc rule of spec §4.1 (`s2sphere` is not under `src/`): keep a
containing input interval, otherwise join the two intervals in the
direction that yields the smaller span. -/
def lng_union (aLo aHi bLo bHi : ℚ) : ℚ × ℚ :=
  if lng_contains aLo aHi bLo && lng_contains aLo aHi bHi
      && decide (lng_span bLo bHi ≤ lng_span aLo aHi) then (aLo, aHi)
  else if lng_contains bLo bHi aLo && lng_contains bLo bHi aHi
      && decide (lng_span aLo aHi ≤ lng_span bLo bHi) then (bLo, bHi)
  else if lng_span aLo bHi ≤ lng_span bLo aHi then (aLo, bHi)
  else (bLo, aHi)

/-- Modelled from the spec: `s2sphere.LatLngRect.union` — componentwise
interval union (lat: min/max; lng: shortest-arc union). -/
def LatLngRect.union (a b : LatLngRect) : LatLngRect :=
  let l := lng_union a.lngLo a.lngHi b.lngLo b.lngHi
  ⟨min a.latLo b.latLo, max a.latHi b.latHi, l.1, l.2⟩

/-- Degenerate rect from a single point, modelling
`s2sphere.LatLngRect(p, p)`. -/
def point_rect (p : LatLng) : LatLngRect :=
  ⟨p.lat, p.lat, p.lng, p.lng⟩

/-- Modelled from the spec (§4.1): `is_point` is true iff `lat_lo == lat_hi`
and the longitude span is zero. -/
def LatLngRect.is_point (r : LatLngRect) : Prop :=
  r.latLo = r.latHi ∧ r.lngLo = r.lngHi

instance (r : LatLngRect) : Decidable r.is_point := by
  unfold LatLngRect.is_point; exact inferInstance

/-- Normalization of a longitude (in degrees) into `(-180, 180]`
(spec §4.1 `normalize_longitude`). -/
def normalize_lng (x : ℚ) : ℚ :=
  x - 360 * ⌈x / 360 - 1 / 2⌉

/-- Modelled from the spec (§4.1): `get_center` — midpoint of the latitude
range and the normalized midpoint of the (possibly wrapping) longitude
span. -/
def LatLngRect.get_center (r : LatLngRect) : LatLng :=
  ⟨(r.latLo + r.latHi) / 2, normalize_lng (r.lngLo + lng_span r.lngLo r.lngHi / 2)⟩

/-- Pixel margins `(left, top, right, bottom)`, the `PixelBoundsT` tuple of
`staticmaps/object.py`. -/
structure PixelBounds where
  left : ℤ
  top : ℤ
  right : ℤ
  bottom : ℤ
deriving DecidableEq, Repr

/-- Modelled from the spec (§4.4 Drawable capability, `staticmaps/object.py`
not under `src/`): an object exposes a geographic bounding rect and extra
pixel margins.  The render capability is drawing-surface output only and is
not part of the fit/projection model. -/
structure MapObject where
  bounds : LatLngRect
  extra_pixel_bounds : PixelBounds
deriving DecidableEq, Repr

/-- Modelled from the spec (`staticmaps/tile_provider.py` not under `src/`):
the provider data read by `Context` — `tile_size()`, `max_zoom()` and
`attribution()` (`None` modelled as `Option.none`). -/
structure TileProvider where
  tile_size : ℕ
  max_zoom : ℕ
  attribution : Option String
deriving DecidableEq, Repr

/-- The fields of `staticmaps.Context` relevant to projection and fitting:
`_background_color`, `_objects`, `_center`, `_zoom`, `_tile_provider`
(`context.py` lines 20-28).  The downloader and cache directory are pure
I/O collaborators and are not modelled. -/
structure Context where
  background_color : Option String
  objects : List MapObject
  center : Option LatLng
  zoom : Option ℤ
  tile_provider : TileProvider
deriving DecidableEq, Repr

/-- Method `Context.object_bounds` (`context.py` lines 115-121): `None` for
an empty object list, otherwise the fold of `LatLngRect.union` over all
objects' bounds.  The source starts the fold from the empty
`s2sphere.LatLngRect()`, which is the identity of `union`; the model folds
from the first object's bounds instead. -/
def Context.object_bounds (c : Context) : Option LatLngRect :=
  match c.objects.map MapObject.bounds with
  | [] => none
  | b :: rest => some (rest.foldl LatLngRect.union b)

/-- One step of the loop of `Context.extra_pixel_bounds` (`context.py`
lines 128-133): componentwise maximum of the accumulator and one object's
extra pixel bounds. -/
def epb_step (acc : PixelBounds) (o : MapObject) : PixelBounds :=
  { left := max acc.left o.extra_pixel_bounds.left,
    top := max acc.top o.extra_pixel_bounds.top,
    right := max acc.right o.extra_pixel_bounds.right,
    bottom := max acc.bottom o.extra_pixel_bounds.bottom }

/-- Method `Context.extra_pixel_bounds` (`context.py` lines 123-134):
componentwise maxima of the objects' extra pixel bounds, starting from
`(0, 0, 0, 0)` except that the bottom margin starts at `12` when the
provider attribution is `None` or the empty string. -/
def Context.extra_pixel_bounds (c : Context) : PixelBounds :=
  let init : PixelBounds :=
    { left := 0, top := 0, right := 0,
      bottom :=
        if c.tile_provider.attribution = none ∨ c.tile_provider.attribution = some "" then 12
        else 0 }
  c.objects.foldl epb_step init

/-- Method `Context.clamp_zoom` (`context.py` lines 292-299). -/
def Context.clamp_zoom (c : Context) : Option ℤ → Option ℤ
  | none => none
  | some z =>
    if z < 0 then some 0
    else if z > (c.tile_provider.max_zoom : ℤ) then some (c.tile_provider.max_zoom : ℤ)
    else some z

/-- Method `Context.set_zoom` (`context.py` lines 30-33): raises
`ValueError` for a zoom outside `[0, 30]`, otherwise stores the zoom. -/
def Context.set_zoom (c : Context) (zoom : ℤ) : Except String Context :=
  if zoom < 0 ∨ zoom > 30 then Except.error "Bad zoom value"
  else Except.ok { c with zoom := some zoom }

/-- Degrees to radians, modelling `s2sphere`'s `.radians` accessor:
`deg * π / 180`. -/
def deg_to_rad (ops : MathOps) (deg : ℚ) : ℚ :=
  deg * ops.pi / 180

/-- The Mercator y formula of `context.py` lines 278-279:
`(1 - log(tan(lat) + 1/cos(lat)) / π) / 2` for a latitude in radians. -/
def merc_y (ops : MathOps) (latRad : ℚ) : ℚ :=
  (1 - ops.log (ops.tan latRad + 1 / ops.cos latRad) / ops.pi) / 2

/-- The longitude-fraction computation of `context.py` lines 280-284:
`dx = (lng_hi - lng_lo) / 360`, then `dx += ceil(abs(dx))` if `dx < 0`, then
`dx -= floor(dx)` if `dx > 1`. -/
def lng_fraction (lngLo lngHi : ℚ) : ℚ :=
  let dx0 := (lngHi - lngLo) / 360
  let dx1 := if dx0 < 0 then dx0 + ((⌈|dx0|⌉ : ℤ) : ℚ) else dx0
  if dx1 > 1 then dx1 - ((⌊dx1⌋ : ℤ) : ℚ) else dx1

/-- Overflow test of the zoom loop (`context.py` line 288): at zoom `z` the
rect needs `dx * 2 ^ z` tiles horizontally and `dy * 2 ^ z` vertically,
against the budgets `w` and `h`. -/
def zoom_overflows (dx dy w h : ℚ) (z : ℕ) : Prop :=
  dx * 2 ^ z > w ∨ dy * 2 ^ z > h

instance (dx dy w h : ℚ) (z : ℕ) : Decidable (zoom_overflows dx dy w h z) := by
  unfold zoom_overflows; exact inferInstance

/-- The body of the zoom loop of `context.py` lines 286-290, recursing over
the remaining zoom values of `range(1, max_zoom)`: the first zoom whose
tile span overflows the width or height budget returns that zoom minus one;
if none overflows the loop falls through to `max_zoom`. -/
def zoom_search_go (dx dy w h : ℚ) (max_zoom : ℕ) : List ℕ → ℤ
  | [] => (max_zoom : ℤ)
  | zoom :: rest =>
    if zoom_overflows dx dy w h zoom then (zoom : ℤ) - 1
    else zoom_search_go dx dy w h max_zoom rest

/-- The zoom loop of `context.py` lines 286-290:
`for zoom in range(1, max_zoom): ...`. -/
def zoom_search (dx dy w h : ℚ) (max_zoom : ℕ) : ℤ :=
  zoom_search_go dx dy w h max_zoom (List.range' 1 (max_zoom - 1))

/-- Lines 271-272 of `context.py`: when a center is set (and no zoom), the
object bounds are unioned with the degenerate rect of the center. -/
def merged_bounds (c : Context) (b0 : LatLngRect) : LatLngRect :=
  match c.center with
  | some ctr => b0.union (point_rect ctr)
  | none => b0

/-- Method `Context.determine_center_zoom` (`context.py` lines 262-290),
following the source's control flow line by line.  The Python return type
is effectively `Tuple[Optional[LatLng], Optional[int]]` (line 268 can
return `self._center` when it is `None`). -/
def Context.determine_center_zoom (ops : MathOps) (c : Context) (width height : ℤ) :
    Option LatLng × Option ℤ :=
  match c.center, c.zoom with
  | some ctr, some z => (some ctr, c.clamp_zoom (some z))
  | _, _ =>
    match c.object_bounds with
    | none => (c.center, c.clamp_zoom c.zoom)
    | some b0 =>
      match c.zoom with
      | some z => (some b0.get_center, c.clamp_zoom (some z))
      | none =>
        let b := merged_bounds c b0
        if b.is_point then (some b.get_center, none)
        else
          let pm := c.extra_pixel_bounds
          let ts : ℚ := (c.tile_provider.tile_size : ℚ)
          let w := (((width : ℚ)) - 2 * ((max pm.left pm.right : ℤ) : ℚ)) / ts
          let h := (((height : ℚ)) - 2 * ((max pm.top pm.bottom : ℤ) : ℚ)) / ts
          let min_y := merc_y ops (deg_to_rad ops b.latLo)
          let max_y := merc_y ops (deg_to_rad ops b.latHi)
          let dx := lng_fraction b.lngLo b.lngHi
          let dy := |max_y - min_y|
          (some b.get_center, some (zoom_search dx dy w h c.tile_provider.max_zoom))

/-- Outcome of one `fetch_tile_image` call as observed by the tile loop of
`render_image_tiles`: a tile surface, `None`, or a raised `RuntimeError`
(`tile_downloader.py` line 116). -/
inductive FetchResult
  | ok
  | missing
  | fetchError
deriving DecidableEq, Repr

/-- Modelled from the spec (§4.2, `staticmaps/transformer.py` not under
`src/`): the `Transformer` values read by the tile loops — zoom, first
visible tile indices and visible tile counts per axis. -/
structure Transformer where
  zoom : ℕ
  first_tile_x : ℤ
  first_tile_y : ℤ
  tiles_x : ℕ
  tiles_y : ℕ
deriving DecidableEq, Repr

/-- Modelled from the spec (§3): the tile grid at zoom `z` has `2 ^ z` tiles
per axis (`Transformer.number_of_tiles`). -/
def Transformer.number_of_tiles (t : Transformer) : ℤ :=
  2 ^ t.zoom

/-- Modelled from the spec (§4.2, `staticmaps/transformer.py` not under
`src/`): `first_tile = floor((centerWorld - size/2) / tileSize)` and
`tiles = ceil(size / tileSize) + 1` per axis. -/
def mk_transformer (ops : MathOps) (width height : ℤ) (zoom : ℕ) (center : LatLng)
    (tile_size : ℕ) : Transformer :=
  let center_world_x : ℚ := (tile_size : ℚ) * 2 ^ zoom * ((center.lng + 180) / 360)
  let center_world_y : ℚ := (tile_size : ℚ) * 2 ^ zoom * merc_y ops (deg_to_rad ops center.lat)
  { zoom := zoom
    first_tile_x := ⌊(center_world_x - (width : ℚ) / 2) / (tile_size : ℚ)⌋
    first_tile_y := ⌊(center_world_y - (height : ℚ) / 2) / (tile_size : ℚ)⌋
    tiles_x := (⌈(width : ℚ) / (tile_size : ℚ)⌉.toNat + 1)
    tiles_y := (⌈(height : ℚ) / (tile_size : ℚ)⌉.toNat + 1) }

/-- The grid cells `(x, y)` passed to `fetch_tile_image` by the double loop
of `Context.render_image_tiles` (`context.py` lines 155-161): rows with
`y < 0` or `y >= number_of_tiles` are skipped by `continue`, and each
column index is reduced modulo `number_of_tiles` (Python `%` on a positive
modulus agrees with `Int.emod`). -/
def tile_cells (t : Transformer) : List (ℤ × ℤ) :=
  (List.range t.tiles_y).flatMap (fun yy =>
    let y : ℤ := t.first_tile_y + (yy : ℤ)
    if y < 0 ∨ y ≥ t.number_of_tiles then []
    else (List.range t.tiles_x).map (fun xx => ((t.first_tile_x + (xx : ℤ)) % t.number_of_tiles, y)))

/-- Method `Context.render_image_tiles` (`context.py` lines 155-175) as the list of
cells actually painted: the loop visits every cell of `tile_cells`, paints
exactly those whose fetch yields a tile, and skips cells whose fetch
returns `None` or raises `RuntimeError` (caught by the `try`/`except`). -/
def render_image_tiles (fetch : ℕ → ℤ → ℤ → FetchResult) (t : Transformer) : List (ℤ × ℤ) :=
  (tile_cells t).filter (fun p => fetch t.zoom p.1 p.2 == FetchResult.ok)

/-- Method `Context.render_image` (`context.py` lines 78-93) restricted to its
observable fit/projection behaviour: resolve center and zoom, fail with
`RuntimeError` when either is `None` (lines 80-81), otherwise build the
transformer, paint tiles and render every object (the drawing calls
themselves are surface output).  Returns the painted cells and the number
of objects rendered. -/
def Context.render_image (ops : MathOps) (c : Context) (fetch : ℕ → ℤ → ℤ → FetchResult)
    (width height : ℤ) : Except String (List (ℤ × ℤ) × ℕ) :=
  match c.determine_center_zoom ops width height with
  | (some ctr, some z) =>
    let t := mk_transformer ops width height z.toNat ctr c.tile_provider.tile_size
    Except.ok (render_image_tiles fetch t, c.objects.length)
  | _ => Except.error "Cannot render map without center/zoom."

/-- State-passing embedding of `Context.object_bounds`: the method body
assigns no attribute of `self` (only the local `bounds`), so the state
component is returned unchanged. -/
def Context.object_bounds_st (c : Context) : Context × Option LatLngRect :=
  (c, c.object_bounds)

/-- State-passing embedding of `Context.extra_pixel_bounds`: the method body
assigns no attribute of `self`. -/
def Context.extra_pixel_bounds_st (c : Context) : Context × PixelBounds :=
  (c, c.extra_pixel_bounds)

/-- State-passing embedding of `Context.clamp_zoom`: the method body assigns
no attribute of `self`. -/
def Context.clamp_zoom_st (c : Context) (z : Option ℤ) : Context × Option ℤ :=
  (c, c.clamp_zoom z)

/-- State-passing embedding of `Context.determine_center_zoom`: the method
body (`context.py` lines 262-290) assigns no attribute of `self` — `b`,
`pixel_margin`, `w`, `h`, `min_y`, `max_y`, `dx`, `dy`, `zoom`, `tiles` are
all locals — and each sub-call (`object_bounds`, `extra_pixel_bounds`,
`clamp_zoom`) likewise leaves the state unchanged. -/
def Context.determine_center_zoom_st (ops : MathOps) (c : Context) (width height : ℤ) :
    Context × (Option LatLng × Option ℤ) :=
  (c, c.determine_center_zoom ops width height)

/-- Interpretation of the abstract math operations sending everything to
zero; used to instantiate theorems on concrete inputs whose conclusion does
not depend on the transcendental values. -/
def ops0 : MathOps :=
  ⟨fun _ => 0, fun _ => 0, fun _ => 0, 0⟩

/-- Concrete tile provider with the OSM-like parameters: 256-pixel tiles,
`max_zoom = 18`, a non-empty attribution string. -/
def provOSM : TileProvider :=
  ⟨256, 18, some "Map data by OpenStreetMap contributors"⟩

/-- Fetch function whose every call yields a tile. -/
def fetch_all_ok : ℕ → ℤ → ℤ → FetchResult :=
  fun _ _ _ => FetchResult.ok

/-- Characterization of the zoom loop body on an arbitrary tail
`range' s n` of the zoom range: either no zoom in the window overflows and
the loop falls through to `max_zoom`, or the least overflowing zoom `k` of
the window is found and `k - 1` is returned. -/
theorem zoom_search_go_spec (dx dy w h : ℚ) (M : ℕ) (n : ℕ) : ∀ s : ℕ,
    ((∀ k, s ≤ k → k < s + n → ¬ zoom_overflows dx dy w h k) ∧
      zoom_search_go dx dy w h M (List.range' s n) = (M : ℤ)) ∨
    (∃ k, s ≤ k ∧ k < s + n ∧ zoom_overflows dx dy w h k ∧
      (∀ j, s ≤ j → j < k → ¬ zoom_overflows dx dy w h j) ∧
      zoom_search_go dx dy w h M (List.range' s n) = (k : ℤ) - 1) := by
  induction n with
  | zero =>
    intro s
    left
    exact ⟨fun k hk1 hk2 => absurd (lt_of_le_of_lt hk1 hk2) (by omega), rfl⟩
  | succ m ih =>
    intro s
    rw [List.range'_succ]
    by_cases hov : zoom_overflows dx dy w h s
    · right
      refine ⟨s, le_refl s, by omega, hov, fun j h1 h2 => absurd h1 (by omega), ?_⟩
      simp [zoom_search_go, hov]
    · rcases ih (s + 1) with ⟨hall, heq⟩ | ⟨k, hk1, hk2, hovk, hmin, heq⟩
      · left
        refine ⟨fun k hk1 hk2 => ?_, by simp [zoom_search_go, hov, heq]⟩
        rcases eq_or_lt_of_le hk1 with rfl | hlt
        · exact hov
        · exact hall k (by omega) (by omega)
      · right
        refine ⟨k, by omega, by omega, hovk, fun j h1 h2 => ?_, by simp [zoom_search_go, hov, heq]⟩
        rcases eq_or_lt_of_le h1 with rfl | hlt
        · exact hov
        · exact hmin j (by omega) h2

/-- C2: for every `Context` with an empty object list and no explicitly set
center, `determine_center_zoom` yields no usable center, and `render_image`
fails with the fatal `RuntimeError` of `context.py` lines 80-81 rather than
rendering. -/
theorem render_image_no_content_error (ops : MathOps) (c : Context)
    (fetch : ℕ → ℤ → ℤ → FetchResult) (width height : ℤ)
    (hobj : c.objects = []) (hc : c.center = none) :
    c.render_image ops fetch width height =
      Except.error "Cannot render map without center/zoom." := by
  have hb : c.object_bounds = none := by simp [Context.object_bounds, hobj]
  rcases hz : c.zoom with _ | z <;>
    simp [Context.render_image, Context.determine_center_zoom, hc, hb, hz]

/-- Witness for C2 at a concrete empty context. -/
theorem render_image_no_content_error_witness :
    Context.render_image ops0 ⟨none, [], none, none, provOSM⟩ fetch_all_ok 800 500 =
      Except.error "Cannot render map without center/zoom." :=
  render_image_no_content_error ops0 ⟨none, [], none, none, provOSM⟩ fetch_all_ok 800 500 rfl rfl

/-- C3: with no explicit zoom, when the objects' union bounding rect —
after the optional union with an explicit center of `context.py` lines
271-272 — reduces to a single point, `determine_center_zoom` returns that
point (the rect's center, whose coordinates are the rect's `latLo` and
normalized `lngLo`) and `None` as zoom. -/
theorem determine_center_zoom_point_bounds (ops : MathOps) (c : Context)
    (width height : ℤ) (b0 : LatLngRect)
    (hz : c.zoom = none) (hb : c.object_bounds = some b0)
    (hpt : (merged_bounds c b0).is_point) :
    c.determine_center_zoom ops width height =
      (some (merged_bounds c b0).get_center, none) ∧
    (merged_bounds c b0).get_center =
      ⟨(merged_bounds c b0).latLo, normalize_lng (merged_bounds c b0).lngLo⟩ := by
  constructor
  · rcases hc : c.center with _ | ctr <;>
      simp [Context.determine_center_zoom, hc, hz, hb, hpt]
  · obtain ⟨hlat, hlng⟩ := hpt
    unfold LatLngRect.get_center
    rw [← hlat, ← hlng]
    simp only [LatLng.mk.injEq]
    constructor
    · ring
    · rw [lng_span, if_pos (le_refl _), sub_self]
      norm_num

/-- Witness for C3 at a single point object. -/
theorem determine_center_zoom_point_bounds_witness :
    Context.determine_center_zoom ops0
        ⟨none, [⟨point_rect ⟨10, 20⟩, ⟨0, 0, 0, 0⟩⟩], none, none, provOSM⟩ 800 500 =
      (some (merged_bounds ⟨none, [⟨point_rect ⟨10, 20⟩, ⟨0, 0, 0, 0⟩⟩], none, none, provOSM⟩
        (point_rect ⟨10, 20⟩)).get_center, none) :=
  (determine_center_zoom_point_bounds ops0
    ⟨none, [⟨point_rect ⟨10, 20⟩, ⟨0, 0, 0, 0⟩⟩], none, none, provOSM⟩ 800 500
    (point_rect ⟨10, 20⟩) rfl rfl ⟨rfl, rfl⟩).1

/-- C4: whenever a zoom is explicitly set, `determine_center_zoom` returns
that zoom clamped to `[0, max_zoom]` — regardless of the single-point and
zoom-search rules — and the returned center is the explicit center when one
is set, and the objects' bounding-rect center when only the zoom is set
(and objects exist). -/
theorem determine_center_zoom_explicit_zoom (ops : MathOps) (c : Context)
    (width height : ℤ) (z : ℤ) (hz : c.zoom = some z) :
    (∃ z', (c.determine_center_zoom ops width height).2 = some z' ∧
      0 ≤ z' ∧ z' ≤ (c.tile_provider.max_zoom : ℤ) ∧
      (0 ≤ z → z ≤ (c.tile_provider.max_zoom : ℤ) → z' = z) ∧
      (z < 0 → z' = 0) ∧
      ((c.tile_provider.max_zoom : ℤ) < z → z' = (c.tile_provider.max_zoom : ℤ))) ∧
    (∀ ctr, c.center = some ctr →
      (c.determine_center_zoom ops width height).1 = some ctr) ∧
    (c.center = none → ∀ b, c.object_bounds = some b →
      (c.determine_center_zoom ops width height).1 = some b.get_center) := by
  have hclamp : ∃ z', c.clamp_zoom (some z) = some z' ∧
      0 ≤ z' ∧ z' ≤ (c.tile_provider.max_zoom : ℤ) ∧
      (0 ≤ z → z ≤ (c.tile_provider.max_zoom : ℤ) → z' = z) ∧
      (z < 0 → z' = 0) ∧
      ((c.tile_provider.max_zoom : ℤ) < z → z' = (c.tile_provider.max_zoom : ℤ)) := by
    by_cases h0 : z < 0
    · exact ⟨0, by simp [Context.clamp_zoom, h0], le_refl 0, by positivity,
        by omega, by omega, by omega⟩
    · by_cases hM : z > (c.tile_provider.max_zoom : ℤ)
      · refine ⟨(c.tile_provider.max_zoom : ℤ), by simp [Context.clamp_zoom, h0, hM],
          by positivity, le_refl _, by omega, by omega, by omega⟩
      · exact ⟨z, by simp [Context.clamp_zoom, h0, hM], by omega, by omega,
          by omega, by omega, by omega⟩
  obtain ⟨z', hz', hprops⟩ := hclamp
  refine ⟨⟨z', ?_, hprops⟩, ?_, ?_⟩
  · rcases hc : c.center with _ | ctr
    · rcases hb : c.object_bounds with _ | b
      · simp [Context.determine_center_zoom, hc, hz, hb, hz']
      · simp [Context.determine_center_zoom, hc, hz, hb, hz']
    · simp [Context.determine_center_zoom, hc, hz, hz']
  · intro ctr hctr
    simp [Context.determine_center_zoom, hctr, hz, hz']
  · intro hc b hbb
    simp [Context.determine_center_zoom, hc, hz, hbb, hz']

/-- Witness for C4: explicit center and an out-of-range zoom. -/
theorem determine_center_zoom_explicit_zoom_witness :
    (Context.determine_center_zoom ops0
        ⟨none, [], some ⟨1, 2⟩, some 25, provOSM⟩ 800 500).1 = some ⟨1, 2⟩ :=
  ((determine_center_zoom_explicit_zoom ops0
    ⟨none, [], some ⟨1, 2⟩, some 25, provOSM⟩ 800 500 25 rfl).2.1 ⟨1, 2⟩ rfl)

/-- Counterexample to C5 as stated: explicitly setting the zoom `-1`
(an integer outside `[0, max_zoom]`) does fail — `set_zoom` raises
`ValueError` (`context.py` lines 31-32) instead of accepting the value. -/
theorem set_zoom_negative_raises :
    Context.set_zoom ⟨none, [], none, none, provOSM⟩ (-1) =
      Except.error "Bad zoom value" := by
  simp [Context.set_zoom]

/-- C5 amended: setting a zoom outside `[0, 30]` raises `ValueError`; a zoom
inside `[0, 30]` (also when above `max_zoom`) is accepted unchanged and is
only clamped into `[0, max_zoom]` when the fit computes `clamp_zoom`. -/
theorem set_zoom_clamp_behaviour (c : Context) (z : ℤ) :
    ((z < 0 ∨ z > 30) → c.set_zoom z = Except.error "Bad zoom value") ∧
    (0 ≤ z → z ≤ 30 →
      c.set_zoom z = Except.ok { c with zoom := some z } ∧
      ∃ z', Context.clamp_zoom { c with zoom := some z } (some z) = some z' ∧
        0 ≤ z' ∧ z' ≤ (c.tile_provider.max_zoom : ℤ) ∧
        (z ≤ (c.tile_provider.max_zoom : ℤ) → z' = z) ∧
        ((c.tile_provider.max_zoom : ℤ) < z → z' = (c.tile_provider.max_zoom : ℤ))) := by
  constructor
  · intro h
    simp only [Context.set_zoom, if_pos h]
  · intro h1 h2
    refine ⟨by simp only [Context.set_zoom, if_neg (by omega : ¬(z < 0 ∨ z > 30))], ?_⟩
    have h0 : ¬z < 0 := by omega
    by_cases hM : z > (c.tile_provider.max_zoom : ℤ)
    · exact ⟨(c.tile_provider.max_zoom : ℤ),
        by simp only [Context.clamp_zoom]; rw [if_neg h0, if_pos hM],
        by positivity, le_refl _, by omega, by omega⟩
    · exact ⟨z, by simp only [Context.clamp_zoom]; rw [if_neg h0, if_neg hM],
        by omega, by omega, by omega, by omega⟩

/-- Witness for the amended C5: zoom 25 is accepted by `set_zoom` even
though the provider's `max_zoom` is 18. -/
theorem set_zoom_clamp_behaviour_witness :
    Context.set_zoom ⟨none, [], none, none, provOSM⟩ 25 =
      Except.ok { (⟨none, [], none, none, provOSM⟩ : Context) with zoom := some 25 } :=
  ((set_zoom_clamp_behaviour ⟨none, [], none, none, provOSM⟩ 25).2
    (by norm_num) (by norm_num)).1

/-- C9: the state-passing embeddings of `determine_center_zoom`,
`object_bounds`, `extra_pixel_bounds` and `clamp_zoom` leave every field of
the `Context` unchanged (the method bodies assign no attribute of `self`),
and a repeated call on the resulting state returns the same result. -/
theorem determine_center_zoom_state_unchanged (ops : MathOps) (c : Context)
    (width height : ℤ) :
    (c.determine_center_zoom_st ops width height).1 = c ∧
    (c.determine_center_zoom_st ops width height).1.objects = c.objects ∧
    (c.determine_center_zoom_st ops width height).1.center = c.center ∧
    (c.determine_center_zoom_st ops width height).1.zoom = c.zoom ∧
    (c.determine_center_zoom_st ops width height).1.tile_provider = c.tile_provider ∧
    (c.determine_center_zoom_st ops width height).1.background_color = c.background_color ∧
    ((c.determine_center_zoom_st ops width height).1.determine_center_zoom_st ops
        width height).2 = (c.determine_center_zoom_st ops width height).2 ∧
    c.object_bounds_st.1 = c ∧
    c.extra_pixel_bounds_st.1 = c ∧
    (∀ z, (c.clamp_zoom_st z).1 = c) := by
  simp [Context.determine_center_zoom_st, Context.object_bounds_st,
    Context.extra_pixel_bounds_st, Context.clamp_zoom_st]

/-- Componentwise reading of the `extra_pixel_bounds` fold: each field of
the folded `PixelBounds` record is the scalar `max`-fold of that field. -/
theorem epb_foldl_proj (l : List MapObject) (acc : PixelBounds) :
    (l.foldl epb_step acc).left =
      l.foldl (fun x o => max x o.extra_pixel_bounds.left) acc.left ∧
    (l.foldl epb_step acc).top =
      l.foldl (fun x o => max x o.extra_pixel_bounds.top) acc.top ∧
    (l.foldl epb_step acc).right =
      l.foldl (fun x o => max x o.extra_pixel_bounds.right) acc.right ∧
    (l.foldl epb_step acc).bottom =
      l.foldl (fun x o => max x o.extra_pixel_bounds.bottom) acc.bottom := by
  induction l generalizing acc with
  | nil => exact ⟨rfl, rfl, rfl, rfl⟩
  | cons o os ih =>
    simpa [List.foldl_cons, epb_step] using ih (epb_step acc o)

/-- Least-upper-bound description of a scalar `max`-fold: the result
dominates the seed and every element, and is attained by the seed or by
some element. -/
theorem foldl_max_spec (f : MapObject → ℤ) (l : List MapObject) (a : ℤ) :
    a ≤ l.foldl (fun x o => max x (f o)) a ∧
    (∀ o ∈ l, f o ≤ l.foldl (fun x o => max x (f o)) a) ∧
    (l.foldl (fun x o => max x (f o)) a = a ∨
      ∃ o ∈ l, l.foldl (fun x o => max x (f o)) a = f o) := by
  induction l generalizing a with
  | nil => exact ⟨le_refl a, by simp, Or.inl rfl⟩
  | cons o os ih =>
    obtain ⟨h1, h2, h3⟩ := ih (max a (f o))
    rw [List.foldl_cons]
    refine ⟨le_trans (le_max_left a (f o)) h1, ?_, ?_⟩
    · intro o' ho'
      rcases List.mem_cons.mp ho' with rfl | ho'
      · exact le_trans (le_max_right a (f o')) h1
      · exact h2 o' ho'
    · rcases h3 with h | ⟨o', ho', heq⟩
      · rcases max_choice a (f o) with hm | hm
        · left; rw [h, hm]
        · right; exact ⟨o, List.mem_cons_self o os, by rw [h, hm]⟩
      · right; exact ⟨o', List.mem_cons_of_mem o ho', heq⟩

/-- C10: `extra_pixel_bounds` is the componentwise maximum of the objects'
extra pixel bounds floored at 0, with the bottom component additionally
floored at 12 exactly when the provider attribution is `None` or empty;
all four margins are non-negative. -/
theorem extra_pixel_bounds_componentwise_max (c : Context) :
    (0 ≤ c.extra_pixel_bounds.left ∧ 0 ≤ c.extra_pixel_bounds.top ∧
      0 ≤ c.extra_pixel_bounds.right ∧ 0 ≤ c.extra_pixel_bounds.bottom) ∧
    ((if c.tile_provider.attribution = none ∨ c.tile_provider.attribution = some ""
        then (12 : ℤ) else 0) ≤ c.extra_pixel_bounds.bottom) ∧
    (∀ o ∈ c.objects,
      o.extra_pixel_bounds.left ≤ c.extra_pixel_bounds.left ∧
      o.extra_pixel_bounds.top ≤ c.extra_pixel_bounds.top ∧
      o.extra_pixel_bounds.right ≤ c.extra_pixel_bounds.right ∧
      o.extra_pixel_bounds.bottom ≤ c.extra_pixel_bounds.bottom) ∧
    ((c.extra_pixel_bounds.left = 0 ∨
        ∃ o ∈ c.objects, c.extra_pixel_bounds.left = o.extra_pixel_bounds.left) ∧
      (c.extra_pixel_bounds.top = 0 ∨
        ∃ o ∈ c.objects, c.extra_pixel_bounds.top = o.extra_pixel_bounds.top) ∧
      (c.extra_pixel_bounds.right = 0 ∨
        ∃ o ∈ c.objects, c.extra_pixel_bounds.right = o.extra_pixel_bounds.right) ∧
      (c.extra_pixel_bounds.bottom =
          (if c.tile_provider.attribution = none ∨ c.tile_provider.attribution = some ""
            then (12 : ℤ) else 0) ∨
        ∃ o ∈ c.objects, c.extra_pixel_bounds.bottom = o.extra_pixel_bounds.bottom)) := by
  have hunf : c.extra_pixel_bounds =
      c.objects.foldl epb_step
        ⟨0, 0, 0,
          if c.tile_provider.attribution = none ∨ c.tile_provider.attribution = some ""
            then 12 else 0⟩ := rfl
  obtain ⟨hL, hT, hR, hB⟩ :=
    epb_foldl_proj c.objects
      ⟨0, 0, 0,
        if c.tile_provider.attribution = none ∨ c.tile_provider.attribution = some ""
          then 12 else 0⟩
  obtain ⟨aL, bL, cL⟩ := foldl_max_spec (fun o => o.extra_pixel_bounds.left) c.objects 0
  obtain ⟨aT, bT, cT⟩ := foldl_max_spec (fun o => o.extra_pixel_bounds.top) c.objects 0
  obtain ⟨aR, bR, cR⟩ := foldl_max_spec (fun o => o.extra_pixel_bounds.right) c.objects 0
  obtain ⟨aB, bB, cB⟩ :=
    foldl_max_spec (fun o => o.extra_pixel_bounds.bottom) c.objects
      (if c.tile_provider.attribution = none ∨ c.tile_provider.attribution = some ""
        then 12 else 0)
  have hbase : (0 : ℤ) ≤
      (if c.tile_provider.attribution = none ∨ c.tile_provider.attribution = some ""
        then 12 else 0) := by split <;> norm_num
  rw [hunf, hL, hT, hR, hB]
  exact ⟨⟨aL, aT, aR, le_trans hbase aB⟩, aB,
    fun o ho => ⟨bL o ho, bT o ho, bR o ho, bB o ho⟩, cL, cT, cR, cB⟩

/-- Reduction of `determine_center_zoom` to the zoom search whenever no
center and no zoom are set to short-circuit it and the (optionally
center-merged) bounds are not a single point. -/
theorem determine_center_zoom_search_eq (ops : MathOps) (c : Context)
    (width height : ℤ) (b0 : LatLngRect)
    (hz : c.zoom = none) (hb : c.object_bounds = some b0)
    (hpt : ¬ (merged_bounds c b0).is_point) :
    c.determine_center_zoom ops width height =
      (some (merged_bounds c b0).get_center,
        some (zoom_search
          (lng_fraction (merged_bounds c b0).lngLo (merged_bounds c b0).lngHi)
          (|merc_y ops (deg_to_rad ops (merged_bounds c b0).latHi) -
            merc_y ops (deg_to_rad ops (merged_bounds c b0).latLo)|)
          (((width : ℚ) - 2 * ((max c.extra_pixel_bounds.left c.extra_pixel_bounds.right : ℤ) : ℚ)) /
            (c.tile_provider.tile_size : ℚ))
          (((height : ℚ) - 2 * ((max c.extra_pixel_bounds.top c.extra_pixel_bounds.bottom : ℤ) : ℚ)) /
            (c.tile_provider.tile_size : ℚ))
          c.tile_provider.max_zoom)) := by
  rcases hcen : c.center with _ | ctr <;>
    simp [Context.determine_center_zoom, hcen, hz, hb, hpt]

/-- C1 amended: with no explicit center or zoom and non-point bounds, the
returned zoom is the result of searching `zoom = 1, ..., max_zoom - 1` in
order: the first zoom whose tile demand overflows the margin-reduced
width or height budget, minus one (so 0 — not `max_zoom` — when zoom 1
already overflows), and `max_zoom` when no zoom in that range overflows. -/
theorem determine_center_zoom_first_overflow (ops : MathOps) (c : Context)
    (width height : ℤ) (b0 : LatLngRect)
    (hz : c.zoom = none) (hb : c.object_bounds = some b0)
    (hpt : ¬ (merged_bounds c b0).is_point)
    (hM : 1 ≤ c.tile_provider.max_zoom) :
    c.determine_center_zoom ops width height =
      (some (merged_bounds c b0).get_center,
        some (zoom_search
          (lng_fraction (merged_bounds c b0).lngLo (merged_bounds c b0).lngHi)
          (|merc_y ops (deg_to_rad ops (merged_bounds c b0).latHi) -
            merc_y ops (deg_to_rad ops (merged_bounds c b0).latLo)|)
          (((width : ℚ) - 2 * ((max c.extra_pixel_bounds.left c.extra_pixel_bounds.right : ℤ) : ℚ)) /
            (c.tile_provider.tile_size : ℚ))
          (((height : ℚ) - 2 * ((max c.extra_pixel_bounds.top c.extra_pixel_bounds.bottom : ℤ) : ℚ)) /
            (c.tile_provider.tile_size : ℚ))
          c.tile_provider.max_zoom)) ∧
    (let dx := lng_fraction (merged_bounds c b0).lngLo (merged_bounds c b0).lngHi
     let dy := |merc_y ops (deg_to_rad ops (merged_bounds c b0).latHi) -
       merc_y ops (deg_to_rad ops (merged_bounds c b0).latLo)|
     let w := ((width : ℚ) - 2 * ((max c.extra_pixel_bounds.left c.extra_pixel_bounds.right : ℤ) : ℚ)) /
       (c.tile_provider.tile_size : ℚ)
     let h := ((height : ℚ) - 2 * ((max c.extra_pixel_bounds.top c.extra_pixel_bounds.bottom : ℤ) : ℚ)) /
       (c.tile_provider.tile_size : ℚ)
     ((∀ k, 1 ≤ k → k < c.tile_provider.max_zoom → ¬ zoom_overflows dx dy w h k) ∧
        zoom_search dx dy w h c.tile_provider.max_zoom = (c.tile_provider.max_zoom : ℤ)) ∨
     (∃ k, 1 ≤ k ∧ k < c.tile_provider.max_zoom ∧ zoom_overflows dx dy w h k ∧
        (∀ j, 1 ≤ j → j < k → ¬ zoom_overflows dx dy w h j) ∧
        zoom_search dx dy w h c.tile_provider.max_zoom = (k : ℤ) - 1)) := by
  refine ⟨determine_center_zoom_search_eq ops c width height b0 hz hb hpt, ?_⟩
  have hsum : 1 + (c.tile_provider.max_zoom - 1) = c.tile_provider.max_zoom := by omega
  have hspec := zoom_search_go_spec
    (lng_fraction (merged_bounds c b0).lngLo (merged_bounds c b0).lngHi)
    (|merc_y ops (deg_to_rad ops (merged_bounds c b0).latHi) -
      merc_y ops (deg_to_rad ops (merged_bounds c b0).latLo)|)
    (((width : ℚ) - 2 * ((max c.extra_pixel_bounds.left c.extra_pixel_bounds.right : ℤ) : ℚ)) /
      (c.tile_provider.tile_size : ℚ))
    (((height : ℚ) - 2 * ((max c.extra_pixel_bounds.top c.extra_pixel_bounds.bottom : ℤ) : ℚ)) /
      (c.tile_provider.tile_size : ℚ))
    c.tile_provider.max_zoom (c.tile_provider.max_zoom - 1) 1
  rw [hsum] at hspec
  simpa [zoom_search] using hspec

/-- Context with neither center nor zoom set whose single object spans
10° of latitude and 340° of longitude. -/
def cexC1 : Context :=
  ⟨none, [⟨⟨0, 10, -170, 170⟩, ⟨0, 0, 0, 0⟩⟩], none, none, provOSM⟩

/-- Counterexample to C1 as stated: on a 100×100 canvas the rect of
`cexC1` (nonzero area: both spans are nonzero) already overflows the
width budget at zoom 1, and `determine_center_zoom` returns zoom 0 —
`zoom - 1` for the first overflowing zoom — not `max_zoom` (= 18) as the
claim requires for that case. -/
theorem determine_center_zoom_zoom1_overflow_cex :
    (Context.determine_center_zoom ops0 cexC1 100 100).2 = some 0 ∧
    zoom_overflows (lng_fraction (-170) 170)
      (|merc_y ops0 (deg_to_rad ops0 10) - merc_y ops0 (deg_to_rad ops0 0)|)
      (((100 : ℤ) : ℚ) / 256) (((100 : ℤ) : ℚ) / 256) 1 ∧
    ¬ (⟨0, 10, -170, 170⟩ : LatLngRect).is_point ∧
    (0 : ℚ) ≠ 10 ∧ (-170 : ℚ) ≠ 170 ∧
    (0 : ℤ) ≠ ((provOSM.max_zoom : ℕ) : ℤ) := by
  have hred := determine_center_zoom_search_eq ops0 cexC1 100 100 ⟨0, 10, -170, 170⟩
    rfl rfl (by norm_num [merged_bounds, LatLngRect.is_point, cexC1])
  have hdx : lng_fraction (-170) 170 = 17 / 18 := by
    norm_num [lng_fraction]
  have hdy : |merc_y ops0 (deg_to_rad ops0 10) - merc_y ops0 (deg_to_rad ops0 0)| = 0 := by
    norm_num [merc_y, deg_to_rad, ops0]
  refine ⟨?_, ?_, ?_, by norm_num, by norm_num, by norm_num [provOSM]⟩
  · rw [hred]
    norm_num [merged_bounds, cexC1, Context.extra_pixel_bounds, epb_step, provOSM,
      zoom_search, zoom_search_go, List.range', zoom_overflows, lng_fraction,
      merc_y, deg_to_rad, ops0]
  · norm_num [zoom_overflows, hdx, hdy]
  · norm_num [LatLngRect.is_point]

/-- Context with neither center nor zoom set whose single object spans
10° of longitude and 5° of latitude (the spec's §8 fitting example). -/
def ctx10 : Context :=
  ⟨none, [⟨⟨10, 15, 20, 30⟩, ⟨0, 0, 0, 0⟩⟩], none, none, provOSM⟩

/-- Witness for the amended C1 on the 10°×5° rect of `ctx10`. -/
theorem determine_center_zoom_first_overflow_witness :
    (Context.determine_center_zoom ops0 ctx10 800 500).1 =
      some (merged_bounds ctx10 ⟨10, 15, 20, 30⟩).get_center :=
  congrArg Prod.fst
    (determine_center_zoom_first_overflow ops0 ctx10 800 500 ⟨10, 15, 20, 30⟩
      rfl rfl (by norm_num [merged_bounds, LatLngRect.is_point, ctx10])
      (by norm_num [ctx10, provOSM])).1

/-- Analysis of the longitude-fraction normalization of `context.py` lines
280-284: for bounds in `[-180, 180]` the computed fraction equals the
wrapped longitude span divided by 360 and lies in `[0, 1]`. -/
theorem lng_fraction_wrapped (lo hi : ℚ) (h1 : -180 ≤ lo) (h2 : lo ≤ 180)
    (h3 : -180 ≤ hi) (h4 : hi ≤ 180) :
    lng_fraction lo hi = lng_span lo hi / 360 ∧
    0 ≤ lng_fraction lo hi ∧ lng_fraction lo hi ≤ 1 := by
  by_cases hle : lo ≤ hi
  · have h0 : ¬((hi - lo) / 360 < 0) := by
      rw [not_lt]
      exact div_nonneg (by linarith) (by norm_num)
    have hgt : ¬((hi - lo) / 360 > 1) := by
      rw [not_lt, div_le_one₀ (by norm_num : (0 : ℚ) < 360)]
      linarith
    simp only [lng_fraction, lng_span, if_neg h0, if_pos hle, if_neg hgt]
    exact ⟨trivial, not_lt.mp h0, not_lt.mp hgt⟩
  · have hlt : hi < lo := not_le.mp hle
    have h0 : (hi - lo) / 360 < 0 := div_neg_of_neg_of_pos (by linarith) (by norm_num)
    have hceil : (⌈|(hi - lo) / 360|⌉ : ℤ) = 1 := by
      rw [abs_of_neg h0, Int.ceil_eq_iff]
      constructor
      · push_cast
        linarith
      · push_cast
        rw [neg_le, le_div_iff₀ (by norm_num : (0 : ℚ) < 360)]
        linarith
    have hm1 : (-1 : ℚ) ≤ (hi - lo) / 360 := by
      rw [le_div_iff₀ (by norm_num : (0 : ℚ) < 360)]
      linarith
    have hgt : ¬((hi - lo) / 360 + ((1 : ℤ) : ℚ) > 1) := by
      push_cast
      linarith
    simp only [lng_fraction, lng_span, if_pos h0, if_neg hle, hceil, if_neg hgt]
    push_cast
    refine ⟨by ring, by linarith, by linarith⟩

/-- C8: in the zoom-search branch the vertical fraction handed to the zoom
loop is the absolute difference of the Mercator y formula
`(1 - log(tan(lat) + 1/cos(lat)) / π) / 2` at the two latitude extremes
(not a linear degree difference), and for longitude bounds in
`[-180, 180]` the horizontal fraction equals the wrapped span divided by
360 and lies in `[0, 1]`. -/
theorem span_fraction_mercator (ops : MathOps) (c : Context) (width height : ℤ)
    (b0 : LatLngRect) (hz : c.zoom = none) (hb : c.object_bounds = some b0)
    (hpt : ¬ (merged_bounds c b0).is_point)
    (h1 : -180 ≤ (merged_bounds c b0).lngLo) (h2 : (merged_bounds c b0).lngLo ≤ 180)
    (h3 : -180 ≤ (merged_bounds c b0).lngHi) (h4 : (merged_bounds c b0).lngHi ≤ 180) :
    (c.determine_center_zoom ops width height).2 =
      some (zoom_search
        (lng_span (merged_bounds c b0).lngLo (merged_bounds c b0).lngHi / 360)
        (|merc_y ops (deg_to_rad ops (merged_bounds c b0).latHi) -
          merc_y ops (deg_to_rad ops (merged_bounds c b0).latLo)|)
        (((width : ℚ) - 2 * ((max c.extra_pixel_bounds.left c.extra_pixel_bounds.right : ℤ) : ℚ)) /
          (c.tile_provider.tile_size : ℚ))
        (((height : ℚ) - 2 * ((max c.extra_pixel_bounds.top c.extra_pixel_bounds.bottom : ℤ) : ℚ)) /
          (c.tile_provider.tile_size : ℚ))
        c.tile_provider.max_zoom) ∧
    0 ≤ lng_fraction (merged_bounds c b0).lngLo (merged_bounds c b0).lngHi ∧
    lng_fraction (merged_bounds c b0).lngLo (merged_bounds c b0).lngHi ≤ 1 ∧
    (∀ t : ℚ, merc_y ops t = (1 - ops.log (ops.tan t + 1 / ops.cos t) / ops.pi) / 2) := by
  obtain ⟨hfr, hge, hle⟩ :=
    lng_fraction_wrapped (merged_bounds c b0).lngLo (merged_bounds c b0).lngHi h1 h2 h3 h4
  refine ⟨?_, hge, hle, fun t => rfl⟩
  rw [determine_center_zoom_search_eq ops c width height b0 hz hb hpt, ← hfr]

/-- Witness for C8 on the 10°×5° rect of `ctx10`. -/
theorem span_fraction_mercator_witness :
    0 ≤ lng_fraction (merged_bounds ctx10 ⟨10, 15, 20, 30⟩).lngLo
        (merged_bounds ctx10 ⟨10, 15, 20, 30⟩).lngHi :=
  (span_fraction_mercator ops0 ctx10 800 500 ⟨10, 15, 20, 30⟩ rfl rfl
    (by norm_num [merged_bounds, LatLngRect.is_point, ctx10])
    (by norm_num [merged_bounds, ctx10]) (by norm_num [merged_bounds, ctx10])
    (by norm_num [merged_bounds, ctx10]) (by norm_num [merged_bounds, ctx10])).2.1

/-- C6: every grid cell `(x, y)` passed to the tile fetch by the rendering
loops has `0 ≤ y < 2^zoom` (out-of-range rows are skipped, never wrapped),
and `x` is the raw column index `first_tile_x + xx` reduced modulo
`2^zoom` (hence also in `[0, 2^zoom)`). -/
theorem tile_cells_in_range (t : Transformer) (p : ℤ × ℤ) (hp : p ∈ tile_cells t) :
    (0 ≤ p.2 ∧ p.2 < 2 ^ t.zoom) ∧
    (0 ≤ p.1 ∧ p.1 < 2 ^ t.zoom) ∧
    ∃ xx : ℕ, xx < t.tiles_x ∧ p.1 = (t.first_tile_x + (xx : ℤ)) % (2 ^ t.zoom : ℤ) := by
  simp only [tile_cells, List.mem_flatMap, List.mem_range] at hp
  obtain ⟨yy, hyy, hmem⟩ := hp
  by_cases hcond : (t.first_tile_y + (yy : ℤ) < 0 ∨
      t.first_tile_y + (yy : ℤ) ≥ t.number_of_tiles)
  · rw [if_pos hcond] at hmem
    exact absurd hmem (List.not_mem_nil p)
  · rw [if_neg hcond] at hmem
    rw [List.mem_map] at hmem
    obtain ⟨xx, hxx, heq⟩ := hmem
    simp only [bind_pure_comp, List.map_eq_map] at hxx
    rw [List.mem_map] at hxx
    obtain ⟨xx', hxx', rfl⟩ := hxx
    push_neg at hcond
    obtain ⟨hy0, hy1⟩ := hcond
    have hpos : (0 : ℤ) < 2 ^ t.zoom := by positivity
    have hnum : t.number_of_tiles = 2 ^ t.zoom := rfl
    rw [hnum] at hy1 heq
    subst heq
    refine ⟨⟨hy0, hy1⟩, ⟨Int.emod_nonneg _ (by omega), Int.emod_lt_of_pos _ hpos⟩, ?_⟩
    exact ⟨xx', List.mem_range.mp hxx', rfl⟩

/-- Witness for C6: the wrapped cell `(3, 0)` of a zoom-2 transformer whose
first raw column index is `-1`. -/
theorem tile_cells_in_range_witness :
    ((3 : ℤ), (0 : ℤ)) ∈ tile_cells ⟨2, -1, -1, 3, 3⟩ ∧
    (0 ≤ (0 : ℤ) ∧ (0 : ℤ) < 2 ^ (2 : ℕ)) :=
  ⟨by decide, (tile_cells_in_range ⟨2, -1, -1, 3, 3⟩ (3, 0) (by decide)).1⟩

/-- C7: for every assignment of per-cell fetch outcomes (tile, `None`, or a
raised `RuntimeError`), the render never aborts: it returns the painted
cells and renders every object; a cell whose fetch yields no tile is
simply not painted, and the set of visited cells (`tile_cells`) is the
same for every fetch behaviour. -/
theorem render_image_fetch_failures_skipped (ops : MathOps) (c : Context)
    (width height : ℤ) (ctr : LatLng) (z : ℤ) (t : Transformer)
    (h : c.determine_center_zoom ops width height = (some ctr, some z))
    (ht : t = mk_transformer ops width height z.toNat ctr c.tile_provider.tile_size) :
    ∀ fetch : ℕ → ℤ → ℤ → FetchResult,
      c.render_image ops fetch width height =
        Except.ok (render_image_tiles fetch t, c.objects.length) ∧
      (∀ p ∈ render_image_tiles fetch t,
        p ∈ tile_cells t ∧ fetch t.zoom p.1 p.2 = FetchResult.ok) ∧
      (∀ p ∈ tile_cells t, fetch t.zoom p.1 p.2 ≠ FetchResult.ok →
        p ∉ render_image_tiles fetch t) := by
  intro fetch
  subst ht
  refine ⟨by simp [Context.render_image, h], ?_, ?_⟩
  · intro p hp
    rw [render_image_tiles, List.mem_filter] at hp
    exact ⟨hp.1, by simpa using hp.2⟩
  · intro p hp hne hcontra
    rw [render_image_tiles, List.mem_filter] at hcontra
    exact hne (by simpa using hcontra.2)

/-- Witness for C7 at a context with explicit center and zoom. -/
theorem render_image_fetch_failures_skipped_witness :
    Context.render_image ops0 ⟨none, [], some ⟨0, 0⟩, some 2, provOSM⟩ fetch_all_ok 800 500 =
      Except.ok (render_image_tiles fetch_all_ok
        (mk_transformer ops0 800 500 (2 : ℤ).toNat ⟨0, 0⟩ 256), 0) :=
  (render_image_fetch_failures_skipped ops0 ⟨none, [], some ⟨0, 0⟩, some 2, provOSM⟩
    800 500 ⟨0, 0⟩ 2 (mk_transformer ops0 800 500 (2 : ℤ).toNat ⟨0, 0⟩ 256)
    (by norm_num [Context.determine_center_zoom, Context.clamp_zoom, provOSM])
    rfl fetch_all_ok).1

/-- Method `Context.render_svg_tiles` (`context.py` lines 177-201) as the
list of painted cells: its double loop, row skip and column wraparound are
identical to the raster loop, so it shares `tile_cells`. -/
def render_svg_tiles (fetch : ℕ → ℤ → ℤ → FetchResult) (t : Transformer) : List (ℤ × ℤ) :=
  (tile_cells t).filter (fun p => fetch t.zoom p.1 p.2 == FetchResult.ok)

/-- Witness for C10 at a concrete empty context. -/
theorem extra_pixel_bounds_componentwise_max_witness :
    (0 : ℤ) ≤ (Context.extra_pixel_bounds ⟨none, [], none, none, provOSM⟩).left :=
  (extra_pixel_bounds_componentwise_max ⟨none, [], none, none, provOSM⟩).1.1
